import Mathlib

/-!
Verification of the Panamax Kubernetes adapter (CenturyLinkLabs/panamax-kubernetes-adapter-go).

The Go source is shallowly embedded: Go strings become `String`/`List Char`,
Go `int` becomes `Int`, Go `uint16` becomes `Nat`, Go maps built by in-order
insertion become association lists with last-wins lookup, fallible functions
return `Except`, and the remote Kubernetes API is an abstract oracle whose
invocations are recorded in an explicit call trace.
-/

/-! ## Name sanitizer (adapter/create.go `sanitizeServiceName`,
    adapter/adapter.go `illegalNameCharacters = regexp.MustCompile` of the
    pattern matching runs of non-word-or-underscore characters) -/

/-- A character kept by the sanitizer: the Go regexp replaces `[\W_]+`, and
`\W` in Go (RE2, ASCII classes) is the complement of `[0-9A-Za-z_]`, so the
characters NOT replaced are exactly ASCII alphanumerics. -/
def isLegalNameChar (c : Char) : Bool :=
  decide ((48 ≤ c.toNat ∧ c.toNat ≤ 57) ∨ (65 ≤ c.toNat ∧ c.toNat ≤ 90) ∨
    (97 ≤ c.toNat ∧ c.toNat ≤ 122))

/-- `illegalNameCharacters.ReplaceAllString(n, "-")`: each maximal run of
illegal characters is replaced by a single dash.  The boolean flag records
whether the previous character was part of a run already replaced. -/
def replaceIllegalRuns (inRun : Bool) : List Char → List Char
  | [] => []
  | c :: cs =>
    if isLegalNameChar c then c :: replaceIllegalRuns false cs
    else if inRun then replaceIllegalRuns true cs
    else '-' :: replaceIllegalRuns true cs

/-- `sanitizeServiceName` from adapter/create.go: replace the illegal runs,
then `strings.ToLower`.  After replacement every character is ASCII
(alphanumeric or dash), on which Go lowercasing agrees with `Char.toLower`. -/
def sanitizeServiceName (n : String) : String :=
  ((replaceIllegalRuns false n.data).map Char.toLower).asString

/-- The Name Sanitizer as the spec words it: a lower-case string in which
every maximal run of characters outside `[A-Za-z0-9]` is replaced by a
single dash.  On meeting an illegal character the whole maximal run it heads
is consumed (`dropWhile`) and one dash is emitted; legal characters are
lowercased in place. -/
def sanitizeNameSpec : List Char → List Char
  | [] => []
  | c :: cs =>
    if isLegalNameChar c then Char.toLower c :: sanitizeNameSpec cs
    else '-' :: sanitizeNameSpec (cs.dropWhile (fun d => !isLegalNameChar d))
termination_by l => l.length
decreasing_by
  all_goals simp_wf
  all_goals exact Nat.lt_succ_of_le (List.Sublist.length_le (List.dropWhile_sublist _))

theorem sanitizeNameSpec_nil : sanitizeNameSpec [] = [] := by
  rw [sanitizeNameSpec.eq_def]

theorem sanitizeNameSpec_cons_legal {c : Char} (cs : List Char) (hc : isLegalNameChar c = true) :
    sanitizeNameSpec (c :: cs) = Char.toLower c :: sanitizeNameSpec cs := by
  rw [sanitizeNameSpec.eq_def]
  simp [hc]

theorem sanitizeNameSpec_cons_illegal {c : Char} (cs : List Char)
    (hc : isLegalNameChar c = false) :
    sanitizeNameSpec (c :: cs) =
      '-' :: sanitizeNameSpec (cs.dropWhile (fun d => !isLegalNameChar d)) := by
  rw [sanitizeNameSpec.eq_def]
  simp [hc]

theorem toNat_ofNat_valid (n : Nat) (h : n.isValidChar) : (Char.ofNat n).toNat = n := by
  simp [Char.ofNat, h, Char.ofNatAux, Char.toNat, UInt32.toNat]

theorem toNat_toLower (c : Char) :
    (Char.toLower c).toNat = if 65 ≤ c.toNat ∧ c.toNat ≤ 90 then c.toNat + 32 else c.toNat := by
  simp only [Char.toLower]
  by_cases h : 65 ≤ c.toNat ∧ c.toNat ≤ 90
  · rw [if_pos ⟨h.1, h.2⟩, if_pos h]
    exact toNat_ofNat_valid _ (Or.inl (by omega))
  · rw [if_neg (fun hc => h ⟨hc.1, hc.2⟩), if_neg h]

theorem char_eq_of_toNat_eq {a b : Char} (h : a.toNat = b.toNat) : a = b := by
  have ha := Char.ofNat_toNat a
  rw [← ha, h, Char.ofNat_toNat]

theorem toLower_toLower (c : Char) : Char.toLower (Char.toLower c) = Char.toLower c := by
  apply char_eq_of_toNat_eq
  by_cases h : 65 ≤ c.toNat ∧ c.toNat ≤ 90
  · have h1 : (Char.toLower c).toNat = c.toNat + 32 := by rw [toNat_toLower, if_pos h]
    rw [toNat_toLower, h1, if_neg (by omega)]
  · have h1 : (Char.toLower c).toNat = c.toNat := by rw [toNat_toLower, if_neg h]
    rw [toNat_toLower, h1, if_neg h]

theorem isLegal_iff (c : Char) :
    isLegalNameChar c = true ↔
      (48 ≤ c.toNat ∧ c.toNat ≤ 57) ∨ (65 ≤ c.toNat ∧ c.toNat ≤ 90) ∨
        (97 ≤ c.toNat ∧ c.toNat ≤ 122) := by
  simp [isLegalNameChar]

theorem isLegal_toLower (c : Char) : isLegalNameChar (Char.toLower c) = isLegalNameChar c := by
  by_cases h : isLegalNameChar c = true
  · have := (isLegal_iff c).1 h
    rw [h]
    rw [isLegal_iff, toNat_toLower]
    by_cases h65 : 65 ≤ c.toNat ∧ c.toNat ≤ 90
    · simp only [if_pos h65]
      omega
    · simp only [if_neg h65]
      omega
  · have hc := h
    rw [Bool.not_eq_true] at h
    rw [h]
    rw [Bool.eq_false_iff]
    intro habs
    have h1 := (isLegal_iff _).1 habs
    rw [toNat_toLower] at h1
    apply hc
    rw [isLegal_iff]
    by_cases h65 : 65 ≤ c.toNat ∧ c.toNat ≤ 90
    · rw [if_pos h65] at h1; omega
    · rw [if_neg h65] at h1; exact h1

/-- Fused form of the sanitizer: replace the runs and lowercase in one pass. -/
theorem map_toLower_replaceIllegalRuns (l : List Char) : ∀ b : Bool,
    (replaceIllegalRuns b l).map Char.toLower =
      if b then sanitizeNameSpec (l.dropWhile (fun d => !isLegalNameChar d))
      else sanitizeNameSpec l := by
  induction l with
  | nil =>
    intro b
    cases b <;> simp [replaceIllegalRuns, sanitizeNameSpec_nil]
  | cons c cs ih =>
    intro b
    by_cases hc : isLegalNameChar c = true
    · have h1 : replaceIllegalRuns b (c :: cs) = c :: replaceIllegalRuns false cs := by
        cases b <;> simp [replaceIllegalRuns, hc]
      have h3 : (c :: cs).dropWhile (fun d => !isLegalNameChar d) = c :: cs := by
        rw [List.dropWhile_cons_of_neg]; simp [hc]
      cases b <;>
        simp [h1, h3, sanitizeNameSpec_cons_legal cs hc, ih false]
    · have hcf : isLegalNameChar c = false := by
        rw [Bool.eq_false_iff]; exact hc
      have h3 : (c :: cs).dropWhile (fun d => !isLegalNameChar d) =
          cs.dropWhile (fun d => !isLegalNameChar d) := by
        rw [List.dropWhile_cons_of_pos]; simp [hcf]
      cases b with
      | false =>
        have h1 : replaceIllegalRuns false (c :: cs) = '-' :: replaceIllegalRuns true cs := by
          simp [replaceIllegalRuns, hcf]
        simp only [h1, List.map_cons, ih true, if_true, if_false,
          sanitizeNameSpec_cons_illegal cs hcf]
        rfl
      | true =>
        have h1 : replaceIllegalRuns true (c :: cs) = replaceIllegalRuns true cs := by
          simp [replaceIllegalRuns, hcf]
        simp only [h1, ih true, if_true, h3]

/-- C8: the sanitizer agrees everywhere with the run-collapsing, lowercasing
description given by the spec (it is a total function by construction), and
on the concrete input of the spec example it yields "test-service". -/
theorem sanitizeServiceName_correct :
    (∀ x : String, sanitizeServiceName x = (sanitizeNameSpec x.data).asString) ∧
    sanitizeServiceName "Test _ \n  Service" = "test-service" := by
  constructor
  · intro x
    unfold sanitizeServiceName
    rw [map_toLower_replaceIllegalRuns x.data false, if_neg (by simp)]
  · rfl

/-- Characters produced by the sanitizer are unchanged by a further
lowercasing pass. -/
theorem map_toLower_idem (l : List Char) :
    (l.map Char.toLower).map Char.toLower = l.map Char.toLower := by
  induction l with
  | nil => rfl
  | cons c cs ih => simp [toLower_toLower, ih]

theorem replaceIllegalRuns_map_toLower (l : List Char) : ∀ b : Bool,
    replaceIllegalRuns b (l.map Char.toLower) = (replaceIllegalRuns b l).map Char.toLower := by
  induction l with
  | nil => intro b; rfl
  | cons c cs ih =>
    intro b
    by_cases hc : isLegalNameChar c = true
    · have hcl : isLegalNameChar (Char.toLower c) = true := by rw [isLegal_toLower, hc]
      cases b <;> simp [replaceIllegalRuns, hc, hcl, ih false]
    · have hcf : isLegalNameChar c = false := by rw [Bool.eq_false_iff]; exact hc
      have hcl : isLegalNameChar (Char.toLower c) = false := by rw [isLegal_toLower, hcf]
      cases b <;> simp [replaceIllegalRuns, hcf, hcl, ih true]

/-- Running the replacement pass a second time over an already sanitized
list changes nothing: every dash the first pass produced is an isolated
run of length one. -/
theorem replaceIllegalRuns_idem (l : List Char) :
    (∀ b : Bool, replaceIllegalRuns false (replaceIllegalRuns b l) = replaceIllegalRuns b l) ∧
    replaceIllegalRuns true (replaceIllegalRuns true l) = replaceIllegalRuns true l := by
  induction l with
  | nil => exact ⟨fun b => by cases b <;> rfl, rfl⟩
  | cons c cs ih =>
    by_cases hc : isLegalNameChar c = true
    · constructor
      · intro b
        have h1 : replaceIllegalRuns b (c :: cs) = c :: replaceIllegalRuns false cs := by
          cases b <;> simp [replaceIllegalRuns, hc]
        rw [h1]
        simp [replaceIllegalRuns, hc, ih.1 false]
      · have h1 : replaceIllegalRuns true (c :: cs) = c :: replaceIllegalRuns false cs := by
          simp [replaceIllegalRuns, hc]
        rw [h1]
        simp [replaceIllegalRuns, hc, ih.1 false]
    · have hcf : isLegalNameChar c = false := by rw [Bool.eq_false_iff]; exact hc
      constructor
      · intro b
        cases b with
        | false =>
          have h1 : replaceIllegalRuns false (c :: cs) = '-' :: replaceIllegalRuns true cs := by
            simp [replaceIllegalRuns, hcf]
          have hd : isLegalNameChar '-' = false := by decide
          rw [h1]
          simp [replaceIllegalRuns, hd, ih.2]
        | true =>
          have h1 : replaceIllegalRuns true (c :: cs) = replaceIllegalRuns true cs := by
            simp [replaceIllegalRuns, hcf]
          rw [h1, ih.1 true]
      · have h1 : replaceIllegalRuns true (c :: cs) = replaceIllegalRuns true cs := by
          simp [replaceIllegalRuns, hcf]
        rw [h1, ih.2]

/-- C10: the name sanitizer is idempotent. -/
theorem sanitizeServiceName_idem (x : String) :
    sanitizeServiceName (sanitizeServiceName x) = sanitizeServiceName x := by
  show (((replaceIllegalRuns false
      ((replaceIllegalRuns false x.data).map Char.toLower)).map Char.toLower)).asString = _
  rw [replaceIllegalRuns_map_toLower, (replaceIllegalRuns_idem x.data).1 false,
    map_toLower_idem]
  rfl

/-! ## Data model (vendored pmxadapter types.go and the kubernetes api types
    used by the adapter) -/

/-- pmxadapter.Port: `HostPort`/`ContainerPort` are Go `uint16`. -/
structure Port where
  hostPort : Nat
  containerPort : Nat
  protocol : String
deriving DecidableEq, Repr

/-- pmxadapter.Link. -/
structure Link where
  name : String
  alias_ : String
deriving DecidableEq, Repr

/-- pmxadapter.Environment. -/
structure Environment where
  variable_ : String
  value : String
deriving DecidableEq, Repr

/-- pmxadapter.Volume. -/
structure Volume where
  hostPath : String
  containerPath : String
deriving DecidableEq, Repr

/-- pmxadapter.VolumesFrom. -/
structure VolumesFrom where
  name : String
deriving DecidableEq, Repr

/-- pmxadapter.Deployment: `Count` is a Go `int`. -/
structure Deployment where
  count : Int := 0
deriving DecidableEq, Repr

/-- pmxadapter.Service, the AbstractService of the spec. -/
structure Service where
  name : String := ""
  source : String := ""
  command : String := ""
  links : List Link := []
  ports : List Port := []
  expose : List Nat := []
  environment : List Environment := []
  volumes : List Volume := []
  volumesFrom : List VolumesFrom := []
  deployment : Deployment := {}
deriving DecidableEq, Repr

/-- pmxadapter.ServiceDeployment, the DeploymentRecord of the spec. -/
structure ServiceDeployment where
  id : String := ""
  actualState : String := ""
deriving DecidableEq, Repr

/-- api.ObjectMeta (the fields the adapter uses).  Go string-keyed maps are
embedded as association lists in insertion order. -/
structure ObjectMeta where
  name : String := ""
  labels : List (String × String) := []
deriving DecidableEq, Repr

/-- api.Port: all fields are Go `int`/strings. -/
structure KPort where
  hostPort : Int := 0
  containerPort : Int := 0
  protocol : String := ""
deriving DecidableEq, Repr

/-- api.EnvVar. -/
structure EnvVar where
  name : String := ""
  value : String := ""
deriving DecidableEq, Repr

/-- api.Container (the fields the adapter sets). -/
structure Container where
  name : String := ""
  image : String := ""
  command : List String := []
  ports : List KPort := []
  env : List EnvVar := []
deriving DecidableEq, Repr

/-- api.PodSpec (the fields the adapter sets). -/
structure PodSpec where
  containers : List Container := []
deriving DecidableEq, Repr

/-- api.PodTemplateSpec. -/
structure PodTemplateSpec where
  metadata : ObjectMeta := {}
  spec : PodSpec := {}
deriving DecidableEq, Repr

/-- api.ReplicationControllerSpec; `Template` is a Go pointer, hence `Option`. -/
structure ReplicationControllerSpec where
  replicas : Int := 0
  selector : List (String × String) := []
  template : Option PodTemplateSpec := none
deriving DecidableEq, Repr

/-- api.ReplicationControllerStatus. -/
structure ReplicationControllerStatus where
  replicas : Int := 0
deriving DecidableEq, Repr

/-- api.ReplicationController, the WorkloadSpec of the spec. -/
structure ReplicationController where
  metadata : ObjectMeta := {}
  spec : ReplicationControllerSpec := {}
  status : ReplicationControllerStatus := {}
deriving DecidableEq, Repr

/-- api.ServiceSpec (the fields the adapter sets); `ContainerPort` is an
IntOrString always built from an int by the adapter. -/
structure KServiceSpec where
  selector : List (String × String) := []
  port : Int := 0
  containerPort : Int := 0
  protocol : String := ""
  publicIPs : List String := []
deriving DecidableEq, Repr

/-- api.Service, the NetworkSpec of the spec. -/
structure KService where
  metadata : ObjectMeta := {}
  spec : KServiceSpec := {}
deriving DecidableEq, Repr

/-! ## Workload spec builder (adapter/create.go
    `replicationControllerSpecFromService`) -/

/-- `replicationControllerSpecFromService` from adapter/create.go. -/
def replicationControllerSpecFromService (s : Service) : ReplicationController :=
  let ports := s.ports.map fun p =>
    { hostPort := Int.ofNat p.hostPort
      containerPort := Int.ofNat p.containerPort
      protocol := p.protocol : KPort }
  let env := s.environment.map fun e => { name := e.variable_, value := e.value : EnvVar }
  let safeName := sanitizeServiceName s.name
  let commands : List String := if s.command = "" then [] else [s.command]
  let replicas := if s.deployment.count = 0 then 1 else s.deployment.count
  { metadata := { name := safeName }
    spec :=
      { replicas := replicas
        selector := [("service-name", safeName)]
        template := some
          { metadata := { labels := [("service-name", safeName), ("panamax", "panamax")] }
            spec :=
              { containers :=
                  [{ name := safeName
                     image := s.source
                     command := commands
                     ports := ports
                     env := env }] } } } }

/-- C5: the built WorkloadSpec asks for the declared replica count when it is
positive, and for one replica when the declared count is zero. -/
theorem replicationControllerSpec_replicas (s : Service) :
    (0 < s.deployment.count →
      (replicationControllerSpecFromService s).spec.replicas = s.deployment.count) ∧
    (s.deployment.count = 0 →
      (replicationControllerSpecFromService s).spec.replicas = 1) := by
  constructor
  · intro h
    show (if s.deployment.count = 0 then 1 else s.deployment.count) = s.deployment.count
    rw [if_neg (by omega)]
  · intro h
    show (if s.deployment.count = 0 then 1 else s.deployment.count) = 1
    rw [if_pos h]

/-- Witness for C5 at concrete inputs: a declared count of 0 is normalized to
1, a declared count of 3 is kept. -/
theorem replicationControllerSpec_replicas_witness :
    (replicationControllerSpecFromService { name := "a", deployment := { count := 0 } }).spec.replicas = 1 ∧
    (replicationControllerSpecFromService { name := "a", deployment := { count := 3 } }).spec.replicas = 3 :=
  ⟨(replicationControllerSpec_replicas _).2 rfl,
   (replicationControllerSpec_replicas _).1 (by decide)⟩

/-! ## Errors

The adapter surfaces three shapes of Go error: structured kubernetes
`errors.StatusError` values (carrying a reason), plain errors from the
client, and errors made by the adapter itself (`pmxadapter.Error` with an
HTTP code, and `fmt.Errorf` strings). -/

/-- A kubernetes client error: either an `errors.StatusError` with an
`ErrStatus.Reason`, or any other error. -/
inductive ExecErr where
  | statusError (reason : String) (message : String)
  | other (message : String)
deriving DecidableEq, Repr

/-- `err.Error()` on an executor error (the embedding carries the rendered
message directly). -/
def ExecErr.text : ExecErr → String
  | .statusError _ m => m
  | .other m => m

/-- api.StatusReasonNotFound. -/
def statusReasonNotFound : String := "NotFound"

/-- api.StatusReasonAlreadyExists. -/
def statusReasonAlreadyExists : String := "AlreadyExists"

/-- An error returned by the adapter layer: a `pmxadapter.Error` (HTTP code
plus message, as built by `pmxadapter.NewError` and its wrappers), a
`fmt.Errorf` string, or a backend error passed through unchanged. -/
inductive AdapterErr where
  | pmx (code : Nat) (message : String)
  | errorf (message : String)
  | exec (e : ExecErr)
deriving DecidableEq, Repr

/-- A single-quote character, used by the `%v`-style quoting in the
adapter error messages. -/
def quoteMark : String := (Char.ofNat 39).toString

/-- adapter/kubernetes.go `multiplePortsError`. -/
def multiplePortsError : String :=
  "multiple ports from a single container is not currently supported"

/-- The `fmt.Errorf` message of `validateServicesAliases` (the alias is
quoted by `%v` in the source). -/
def aliasConflictMessage (a : String) : String :=
  "multiple services with the same alias name " ++ quoteMark ++ a ++ quoteMark

/-- The `fmt.Errorf` message for a link whose target is not in the batch
(the spelling "non-existant" is the one in the source). -/
def linkingNonExistentMessage (n : String) : String :=
  "linking to non-existant service " ++ quoteMark ++ n ++ quoteMark

/-- The `fmt.Errorf` message for a link whose target exposes no ports. -/
def linkedToNoPortsMessage (n : String) : String :=
  "linked-to service " ++ quoteMark ++ n ++ quoteMark ++ " exposes no ports"

/-! ## Network spec resolver (adapter/create.go `kServicesFromServices` and
    its two validators) -/

/-- `validateServicesPorts`: any service with more than one declared port
rejects the batch with `pmxadapter.NewAlreadyExistsError(multiplePortsError)`,
an HTTP 409 error. -/
def validateServicesPorts : List Service → Except AdapterErr Unit
  | [] => .ok ()
  | s :: rest =>
    if 1 < s.ports.length then .error (.pmx 409 multiplePortsError)
    else validateServicesPorts rest

/-- The inner loop of `validateServicesAliases` over one service's links.
The Go `aliases` map (alias → most recently recorded target name) becomes an
association list with cons-insertion and first-match lookup. -/
def scanLinksAliases (m : List (String × String)) : List Link → Except AdapterErr (List (String × String))
  | [] => .ok m
  | l :: rest =>
    if l.alias_ = "" then scanLinksAliases m rest
    else
      match m.lookup l.alias_ with
      | some n =>
        if n ≠ l.name then .error (.errorf (aliasConflictMessage l.alias_))
        else scanLinksAliases ((l.alias_, l.name) :: m) rest
      | none => scanLinksAliases ((l.alias_, l.name) :: m) rest

/-- The outer loop of `validateServicesAliases` over the batch. -/
def scanServicesAliases (m : List (String × String)) : List Service → Except AdapterErr (List (String × String))
  | [] => .ok m
  | s :: rest =>
    match scanLinksAliases m s.links with
    | .error e => .error e
    | .ok m2 => scanServicesAliases m2 rest

/-- `validateServicesAliases` from adapter/create.go. -/
def validateServicesAliases (ss : List Service) : Except AdapterErr Unit :=
  match scanServicesAliases [] ss with
  | .error e => .error e
  | .ok _ => .ok ()

/-- The Go `servicesByName` map, built by inserting every service of the
batch keyed by its (unsanitized) name: a later service with the same name
overwrites an earlier one. -/
def serviceByName (ss : List Service) (n : String) : Option Service :=
  List.foldl (fun acc s => if s.name = n then some s else acc) none ss

/-- `kServiceByNameAndPort` from adapter/create.go.  `PublicIPs` is a
package-level variable taken from the environment; it is passed explicitly
here. -/
def kServiceByNameAndPort (name : String) (p : Port) (publicIPs : List String) : KService :=
  { metadata := { name := name, labels := [("service-name", name)] }
    spec :=
      { selector := [("panamax", "panamax")]
        port := Int.ofNat p.hostPort
        containerPort := Int.ofNat p.containerPort
        protocol := p.protocol
        publicIPs := publicIPs } }

/-- The first loop of `kServicesFromServices`: one KService per service
with at least one declared port, keyed by the sanitized service name and
carrying the first declared port, accumulated in batch order. -/
def portKServices (publicIPs : List String) (acc : List KService) : List Service → List KService
  | [] => acc
  | s :: rest =>
    match s.ports with
    | [] => portKServices publicIPs acc rest
    | p :: _ =>
      portKServices publicIPs
        (acc ++ [kServiceByNameAndPort (sanitizeServiceName s.name) p publicIPs]) rest

/-- The inner part of the second loop of `kServicesFromServices`, over one
service's links: skip empty aliases, fail on a target that is absent from
the batch or exposes no ports, and otherwise emit a KService keyed by the
sanitized alias with the target's first port. -/
def aliasKServicesLinks (batch : List Service) (publicIPs : List String) : List Link → Except AdapterErr (List KService)
  | [] => .ok []
  | l :: rest =>
    if l.alias_ = "" then aliasKServicesLinks batch publicIPs rest
    else
      match serviceByName batch l.name with
      | none => .error (.errorf (linkingNonExistentMessage l.name))
      | some t =>
        match t.ports with
        | [] => .error (.errorf (linkedToNoPortsMessage l.name))
        | p :: _ =>
          match aliasKServicesLinks batch publicIPs rest with
          | .error e => .error e
          | .ok ks =>
            .ok (kServiceByNameAndPort (sanitizeServiceName l.alias_) p publicIPs :: ks)

/-- The second loop of `kServicesFromServices` over the batch. -/
def aliasKServices (batch : List Service) (publicIPs : List String) : List Service → Except AdapterErr (List KService)
  | [] => .ok []
  | s :: rest =>
    match aliasKServicesLinks batch publicIPs s.links with
    | .error e => .error e
    | .ok ks1 =>
      match aliasKServices batch publicIPs rest with
      | .error e => .error e
      | .ok ks2 => .ok (ks1 ++ ks2)

/-- `kServicesFromServices` from adapter/create.go: validate ports, validate
aliases, then emit the per-service KServices followed by the per-alias
KServices. -/
def kServicesFromServices (ss : List Service) (publicIPs : List String) : Except AdapterErr (List KService) :=
  match validateServicesPorts ss with
  | .error e => .error e
  | .ok _ =>
    match validateServicesAliases ss with
    | .error e => .error e
    | .ok _ =>
      match aliasKServices ss publicIPs ss with
      | .error e => .error e
      | .ok aliasKs => .ok (portKServices publicIPs [] ss ++ aliasKs)

/-! ## C1: the resolver output, stated the way the claim words it -/

/-- Claim-level description of the first half of the resolver output: for
each service that declares at least one port, one spec keyed by the
sanitized service name carrying the first declared port. -/
def specPortKServices (ss : List Service) (publicIPs : List String) : List KService :=
  ss.filterMap fun s =>
    s.ports.head?.map fun p => kServiceByNameAndPort (sanitizeServiceName s.name) p publicIPs

/-- Claim-level description of the spec one link contributes: nothing for an
empty alias, otherwise a spec keyed by the sanitized alias carrying the
link target's first declared port (when the target resolves). -/
def specAliasKService (ss : List Service) (publicIPs : List String) (l : Link) : Option KService :=
  if l.alias_ = "" then none
  else
    (serviceByName ss l.name).bind fun t =>
      t.ports.head?.map fun p => kServiceByNameAndPort (sanitizeServiceName l.alias_) p publicIPs

/-- Claim-level description of the second half of the resolver output. -/
def specAliasKServices (ss : List Service) (publicIPs : List String) : List KService :=
  ss.flatMap fun s => s.links.filterMap (specAliasKService ss publicIPs)

/-- A link whose target exists in the batch and declares at least one port. -/
def linkResolvable (ss : List Service) (l : Link) : Prop :=
  ∃ t, serviceByName ss l.name = some t ∧ t.ports ≠ []


theorem portKServices_eq (publicIPs : List String) (ss : List Service) :
    ∀ acc, portKServices publicIPs acc ss = acc ++ specPortKServices ss publicIPs := by
  induction ss with
  | nil => intro acc; simp [portKServices, specPortKServices]
  | cons s rest ih =>
    intro acc
    cases hp : s.ports with
    | nil =>
      simp only [portKServices, hp, ih acc]
      simp [specPortKServices, hp]
    | cons p ps =>
      simp only [portKServices, hp, ih]
      simp [specPortKServices, hp]

theorem aliasKServicesLinks_ok (batch : List Service) (publicIPs : List String)
    (L : List Link) (h : ∀ l ∈ L, l.alias_ ≠ "" → linkResolvable batch l) :
    aliasKServicesLinks batch publicIPs L =
      .ok (L.filterMap (specAliasKService batch publicIPs)) := by
  induction L with
  | nil => rfl
  | cons l rest ih =>
    have ihr := ih (fun x hx => h x (List.mem_cons_of_mem l hx))
    by_cases ha : l.alias_ = ""
    · simp [aliasKServicesLinks, ha, ihr, specAliasKService]
    · obtain ⟨t, ht, hports⟩ := h l (List.mem_cons_self l rest) ha
      cases hp : t.ports with
      | nil => exact absurd hp hports
      | cons p ps =>
        simp [aliasKServicesLinks, ha, ht, hp, ihr, specAliasKService]

theorem aliasKServices_ok (batch : List Service) (publicIPs : List String)
    (L : List Service) (h : ∀ s ∈ L, ∀ l ∈ s.links, l.alias_ ≠ "" → linkResolvable batch l) :
    aliasKServices batch publicIPs L =
      .ok (L.flatMap fun s => s.links.filterMap (specAliasKService batch publicIPs)) := by
  induction L with
  | nil => rfl
  | cons s rest ih =>
    rw [aliasKServices, aliasKServicesLinks_ok batch publicIPs s.links
      (fun l hl => h s (List.mem_cons_self s rest) l hl),
      ih (fun x hx => h x (List.mem_cons_of_mem s hx))]
    simp

theorem aliasKServicesLinks_error (batch : List Service) (publicIPs : List String)
    (L : List Link) (e : AdapterErr) (he : aliasKServicesLinks batch publicIPs L = .error e) :
    ∃ l ∈ L, l.alias_ ≠ "" ∧
      ((serviceByName batch l.name = none ∧ e = .errorf (linkingNonExistentMessage l.name)) ∨
        (∃ t, serviceByName batch l.name = some t ∧ t.ports = [] ∧
          e = .errorf (linkedToNoPortsMessage l.name))) := by
  induction L with
  | nil => simp [aliasKServicesLinks] at he
  | cons l rest ih =>
    by_cases ha : l.alias_ = ""
    · rw [aliasKServicesLinks, if_pos ha] at he
      obtain ⟨x, hx, hrest⟩ := ih he
      exact ⟨x, List.mem_cons_of_mem l hx, hrest⟩
    · rw [aliasKServicesLinks, if_neg ha] at he
      cases hs : serviceByName batch l.name with
      | none =>
        rw [hs] at he
        simp only [Except.error.injEq] at he
        exact ⟨l, List.mem_cons_self l rest, ha, Or.inl ⟨hs, he.symm⟩⟩
      | some t =>
        rw [hs] at he
        simp only at he
        cases hp : t.ports with
        | nil =>
          rw [hp] at he
          simp only [Except.error.injEq] at he
          exact ⟨l, List.mem_cons_self l rest, ha, Or.inr ⟨t, hs, hp, he.symm⟩⟩
        | cons p ps =>
          rw [hp] at he
          simp only at he
          cases hr : aliasKServicesLinks batch publicIPs rest with
          | error e2 =>
            rw [hr] at he
            simp only [Except.error.injEq] at he
            obtain ⟨x, hx, hrest⟩ := ih (by rw [hr, he])
            exact ⟨x, List.mem_cons_of_mem l hx, hrest⟩
          | ok ks =>
            rw [hr] at he
            simp at he

theorem aliasKServices_error (batch : List Service) (publicIPs : List String)
    (L : List Service) (e : AdapterErr) (he : aliasKServices batch publicIPs L = .error e) :
    ∃ s ∈ L, ∃ l ∈ s.links, l.alias_ ≠ "" ∧
      ((serviceByName batch l.name = none ∧ e = .errorf (linkingNonExistentMessage l.name)) ∨
        (∃ t, serviceByName batch l.name = some t ∧ t.ports = [] ∧
          e = .errorf (linkedToNoPortsMessage l.name))) := by
  induction L with
  | nil => simp [aliasKServices] at he
  | cons s rest ih =>
    rw [aliasKServices] at he
    cases h1 : aliasKServicesLinks batch publicIPs s.links with
    | error e1 =>
      rw [h1] at he
      simp only [Except.error.injEq] at he
      obtain ⟨l, hl, hrest⟩ := aliasKServicesLinks_error batch publicIPs s.links e (by rw [h1, he])
      exact ⟨s, List.mem_cons_self s rest, l, hl, hrest⟩
    | ok ks1 =>
      rw [h1] at he
      simp only at he
      cases h2 : aliasKServices batch publicIPs rest with
      | error e2 =>
        rw [h2] at he
        simp only [Except.error.injEq] at he
        obtain ⟨x, hx, hrest⟩ := ih (by rw [h2, he])
        exact ⟨x, List.mem_cons_of_mem s hx, hrest⟩
      | ok ks2 =>
        rw [h2] at he
        simp at he

theorem aliasKServicesLinks_fails (batch : List Service) (publicIPs : List String)
    (L : List Link) (h : ∃ l ∈ L, l.alias_ ≠ "" ∧ ¬ linkResolvable batch l) :
    ∃ e, aliasKServicesLinks batch publicIPs L = .error e := by
  induction L with
  | nil => simp at h
  | cons l rest ih =>
    by_cases ha : l.alias_ = ""
    · rw [aliasKServicesLinks, if_pos ha]
      apply ih
      obtain ⟨x, hx, hxa, hxr⟩ := h
      cases List.mem_cons.1 hx with
      | inl hxl => rw [hxl] at hxa; exact absurd ha hxa
      | inr hxr2 => exact ⟨x, hxr2, hxa, hxr⟩
    · rw [aliasKServicesLinks, if_neg ha]
      cases hs : serviceByName batch l.name with
      | none => exact ⟨.errorf (linkingNonExistentMessage l.name), by simp⟩
      | some t =>
        cases hp : t.ports with
        | nil => exact ⟨.errorf (linkedToNoPortsMessage l.name), by simp [hp]⟩
        | cons p ps =>
          have hres : linkResolvable batch l := ⟨t, hs, by rw [hp]; simp⟩
          obtain ⟨x, hx, hxa, hxr⟩ := h
          cases List.mem_cons.1 hx with
          | inl hxl =>
            rw [hxl] at hxr
            exact absurd hres hxr
          | inr hxr2 =>
            obtain ⟨e, he⟩ := ih ⟨x, hxr2, hxa, hxr⟩
            refine ⟨e, ?_⟩
            simp [he, hp]

theorem aliasKServices_fails (batch : List Service) (publicIPs : List String)
    (L : List Service) (h : ∃ s ∈ L, ∃ l ∈ s.links, l.alias_ ≠ "" ∧ ¬ linkResolvable batch l) :
    ∃ e, aliasKServices batch publicIPs L = .error e := by
  induction L with
  | nil => simp at h
  | cons s rest ih =>
    rw [aliasKServices]
    obtain ⟨x, hx, l, hl, hla, hlr⟩ := h
    cases h1 : aliasKServicesLinks batch publicIPs s.links with
    | error e1 => exact ⟨e1, rfl⟩
    | ok ks1 =>
      cases List.mem_cons.1 hx with
      | inl hxl =>
        obtain ⟨e, he⟩ :=
          aliasKServicesLinks_fails batch publicIPs s.links ⟨l, by rw [← hxl]; exact hl, hla, hlr⟩
        rw [he] at h1
        cases h1
      | inr hxr =>
        obtain ⟨e, he⟩ := ih ⟨x, hxr, l, hl, hla, hlr⟩
        refine ⟨e, ?_⟩
        simp [he]

/-- C1: on a batch that passes both validations, the resolver returns
exactly the port-keyed specs (in batch order) followed by the alias-keyed
specs; links with an empty alias and portless unaliased services contribute
nothing; and a failure is exactly a non-empty-aliased link whose target is
missing from the batch ("linking to non-existant service", as the source
spells it) or declares no ports ("linked-to service ... exposes no ports"). -/
theorem kServicesFromServices_resolution (ss : List Service) (publicIPs : List String)
    (hp : validateServicesPorts ss = .ok ())
    (ha : validateServicesAliases ss = .ok ()) :
    ((∀ s ∈ ss, ∀ l ∈ s.links, l.alias_ ≠ "" → linkResolvable ss l) →
      kServicesFromServices ss publicIPs =
        .ok (specPortKServices ss publicIPs ++ specAliasKServices ss publicIPs)) ∧
    (∀ e, kServicesFromServices ss publicIPs = .error e →
      ∃ s ∈ ss, ∃ l ∈ s.links, l.alias_ ≠ "" ∧
        ((serviceByName ss l.name = none ∧ e = .errorf (linkingNonExistentMessage l.name)) ∨
          (∃ t, serviceByName ss l.name = some t ∧ t.ports = [] ∧
            e = .errorf (linkedToNoPortsMessage l.name)))) ∧
    ((∃ s ∈ ss, ∃ l ∈ s.links, l.alias_ ≠ "" ∧ ¬ linkResolvable ss l) →
      ∃ e, kServicesFromServices ss publicIPs = .error e) := by
  refine ⟨?_, ?_, ?_⟩
  · intro h
    rw [kServicesFromServices, hp, ha, aliasKServices_ok ss publicIPs ss h,
      portKServices_eq publicIPs ss []]
    simp [specAliasKServices]
  · intro e he
    rw [kServicesFromServices, hp, ha] at he
    cases hr : aliasKServices ss publicIPs ss with
    | error e2 =>
      rw [hr] at he
      simp only [Except.error.injEq] at he
      exact aliasKServices_error ss publicIPs ss e (by rw [hr, he])
    | ok ks =>
      rw [hr] at he
      simp at he
  · intro hbad
    obtain ⟨e, he⟩ := aliasKServices_fails ss publicIPs ss hbad
    refine ⟨e, ?_⟩
    rw [kServicesFromServices, hp, ha, he]

/-- The port used in the concrete two-service example of the spec. -/
def cachePort : Port := { hostPort := 31981, containerPort := 12345, protocol := "TCP" }

/-- A service with no ports, linking to "DB" under the alias "cache". -/
def webService : Service :=
  { name := "Web App", source := "web", links := [{ name := "DB", alias_ := "cache" }] }

/-- A service exposing one port. -/
def dbService : Service := { name := "DB", source := "db", ports := [cachePort] }

/-- The concrete batch of the spec example: only the second service exposes
a port, the first links to it under alias "cache". -/
def cacheBatch : List Service := [webService, dbService]

/-- Witness for C1: the example batch yields exactly one spec named by the
sanitized service name and one named "cache", both carrying the second
service's port. -/
theorem kServicesFromServices_resolution_witness :
    kServicesFromServices cacheBatch [] =
      .ok [kServiceByNameAndPort "db" cachePort [],
        kServiceByNameAndPort "cache" cachePort []] := by
  have hres : ∀ s ∈ cacheBatch, ∀ l ∈ s.links, l.alias_ ≠ "" → linkResolvable cacheBatch l := by
    intro s hs l hl _
    simp only [cacheBatch, List.mem_cons, List.not_mem_nil, or_false] at hs
    rcases hs with hs | hs
    · subst hs
      simp only [webService, List.mem_singleton] at hl
      subst hl
      exact ⟨dbService, rfl, List.cons_ne_nil _ _⟩
    · subst hs
      simp [dbService] at hl
  have h := (kServicesFromServices_resolution cacheBatch [] rfl rfl).1 hres
  rw [h]
  rfl

/-! ## Batch creation (adapter/create.go `CreateServices`)

The executor is the remote Kubernetes API: an oracle for the results of the
two create operations the function performs.  Every remote invocation is
recorded in a trace so that "no remote call is issued" is a statement about
the trace. -/

/-- The two remote mutations of the create path. -/
inductive RemoteCall where
  | createKServices (ks : List KService)
  | createRC (rc : ReplicationController)
deriving DecidableEq, Repr

/-- The executor operations used by `CreateServices`. -/
structure CreateExecutor where
  createKServices : List KService → Except ExecErr Unit
  createReplicationController : ReplicationController → Except ExecErr ReplicationController

/-- `statusFromReplicationController` at the revision of the create path
(adapter/adapter.go of the same commit as create.go): a pure function of the
desired and actual replica counts, with no pod query. -/
def statusFromReplicationControllerNoPods (rc : ReplicationController) : String :=
  if rc.status.replicas < rc.spec.replicas then "pending"
  else if rc.spec.replicas = rc.status.replicas then "running"
  else "unknown"

/-- The per-service loop of `CreateServices`: build each workload spec,
create it remotely, and either accumulate its deployment record or abort on
the first error ("already exists" being mapped to a Conflict error). -/
def createRCLoop (E : CreateExecutor) : List Service →
    Except AdapterErr (List ServiceDeployment) × List RemoteCall
  | [] => (.ok [], [])
  | s :: rest =>
    let rcSpec := replicationControllerSpecFromService s
    match E.createReplicationController rcSpec with
    | .error e =>
      match e with
      | .statusError r m =>
        if r = statusReasonAlreadyExists then (.error (.pmx 409 m), [.createRC rcSpec])
        else (.error (.exec (.statusError r m)), [.createRC rcSpec])
      | .other m => (.error (.exec (.other m)), [.createRC rcSpec])
    | .ok rc =>
      match createRCLoop E rest with
      | (.error e, cs) => (.error e, .createRC rcSpec :: cs)
      | (.ok deps, cs) =>
        (.ok ({ id := rc.metadata.name,
                actualState := statusFromReplicationControllerNoPods rc } :: deps),
          .createRC rcSpec :: cs)

/-- `CreateServices` from adapter/create.go: resolve the network specs
(validating the batch), create them remotely in one call, then create the
workloads one by one. -/
def CreateServices (E : CreateExecutor) (publicIPs : List String) (ss : List Service) :
    Except AdapterErr (List ServiceDeployment) × List RemoteCall :=
  match kServicesFromServices ss publicIPs with
  | .error e => (.error e, [])
  | .ok ks =>
    match E.createKServices ks with
    | .error e => (.error (.exec e), [.createKServices ks])
    | .ok _ =>
      match createRCLoop E ss with
      | (r, cs) => (r, .createKServices ks :: cs)

theorem validateServicesPorts_fails (ss : List Service)
    (h : ∃ s ∈ ss, 1 < s.ports.length) :
    validateServicesPorts ss = .error (.pmx 409 multiplePortsError) := by
  induction ss with
  | nil => simp at h
  | cons s rest ih =>
    by_cases hs : 1 < s.ports.length
    · rw [validateServicesPorts, if_pos hs]
    · rw [validateServicesPorts, if_neg hs]
      apply ih
      obtain ⟨x, hx, hxp⟩ := h
      cases List.mem_cons.1 hx with
      | inl hxl => rw [hxl] at hxp; exact absurd hxp hs
      | inr hxr => exact ⟨x, hxr, hxp⟩

theorem validateServicesPorts_ok (ss : List Service)
    (h : ∀ s ∈ ss, s.ports.length ≤ 1) : validateServicesPorts ss = .ok () := by
  induction ss with
  | nil => rfl
  | cons s rest ih =>
    rw [validateServicesPorts,
      if_neg (by have := h s (List.mem_cons_self s rest); omega)]
    exact ih fun x hx => h x (List.mem_cons_of_mem s hx)

/-- C2: a batch in which some service declares two or more ports is rejected
by `CreateServices` with the 409 "multiple ports" validation error, before
any remote call (the call trace is empty); the error message starts with
"multiple ports". -/
theorem CreateServices_multiplePorts (E : CreateExecutor) (publicIPs : List String)
    (ss : List Service) (h : ∃ s ∈ ss, 2 ≤ s.ports.length) :
    CreateServices E publicIPs ss = (.error (.pmx 409 multiplePortsError), []) ∧
    ∃ rest, multiplePortsError = "multiple ports" ++ rest := by
  constructor
  · have hv := validateServicesPorts_fails ss (by obtain ⟨s, hs, hp⟩ := h; exact ⟨s, hs, hp⟩)
    rw [CreateServices, kServicesFromServices, hv]
  · exact ⟨" from a single container is not currently supported", rfl⟩

/-- Witness for C2: a one-service batch declaring two ports is rejected with
the multiple-ports error and an empty call trace. -/
theorem CreateServices_multiplePorts_witness :
    CreateServices
      { createKServices := fun _ => .ok (),
        createReplicationController := fun rc => .ok rc }
      []
      [{ name := "Two Ports",
         ports := [{ hostPort := 1, containerPort := 1, protocol := "TCP" },
           { hostPort := 2, containerPort := 2, protocol := "TCP" }] }] =
      (.error (.pmx 409 multiplePortsError), []) :=
  (CreateServices_multiplePorts _ _ _
    ⟨_, List.mem_cons_self _ _, by decide⟩).1

/-! ## Alias validation: why a conflicting alias always aborts the batch -/

theorem lookup_cons_self {k : String} (v : String) (m : List (String × String)) :
    List.lookup k ((k, v) :: m) = some v := by
  simp [List.lookup]

theorem lookup_cons_ne {a k : String} (v : String) (m : List (String × String)) (h : a ≠ k) :
    List.lookup a ((k, v) :: m) = List.lookup a m := by
  have hb : (a == k) = false := by simp [h]
  simp [List.lookup, hb]

theorem scanLinksAliases_ok_consistent :
    ∀ (L : List Link) (m m2 : List (String × String)),
      scanLinksAliases m L = .ok m2 →
      ∀ l ∈ L, l.alias_ ≠ "" → ∀ n, m.lookup l.alias_ = some n → l.name = n := by
  intro L
  induction L with
  | nil => intro m m2 _ l hl; simp at hl
  | cons l0 rest ih =>
    intro m m2 hscan l hl hla n hn
    rw [scanLinksAliases] at hscan
    by_cases ha0 : l0.alias_ = ""
    · rw [if_pos ha0] at hscan
      cases List.mem_cons.1 hl with
      | inl h => subst h; exact absurd ha0 hla
      | inr h => exact ih m m2 hscan l h hla n hn
    · rw [if_neg ha0] at hscan
      cases hm0 : m.lookup l0.alias_ with
      | some n0 =>
        rw [hm0] at hscan
        simp only at hscan
        by_cases hne : n0 ≠ l0.name
        · rw [if_pos hne] at hscan
          simp at hscan
        · rw [if_neg hne] at hscan
          have hn0 : n0 = l0.name := not_not.mp hne
          cases List.mem_cons.1 hl with
          | inl h =>
            subst h
            rw [hm0] at hn
            cases hn
            exact hn0.symm
          | inr h =>
            by_cases heq : l.alias_ = l0.alias_
            · have hl2 := ih _ m2 hscan l h hla l0.name
                (by rw [heq]; exact lookup_cons_self _ _)
              rw [heq, hm0] at hn
              cases hn
              rw [hl2, hn0]
            · refine ih _ m2 hscan l h hla n ?_
              rw [lookup_cons_ne _ _ heq]
              exact hn
      | none =>
        rw [hm0] at hscan
        simp only at hscan
        cases List.mem_cons.1 hl with
        | inl h =>
          subst h
          rw [hm0] at hn
          cases hn
        | inr h =>
          by_cases heq : l.alias_ = l0.alias_
          · rw [heq, hm0] at hn
            cases hn
          · refine ih _ m2 hscan l h hla n ?_
            rw [lookup_cons_ne _ _ heq]
            exact hn

theorem scanLinksAliases_ok_pair :
    ∀ (L : List Link) (m m2 : List (String × String)),
      scanLinksAliases m L = .ok m2 →
      ∀ l1 ∈ L, ∀ l2 ∈ L, l1.alias_ = l2.alias_ → l1.alias_ ≠ "" → l1.name = l2.name := by
  intro L
  induction L with
  | nil => intro m m2 _ l1 hl1; simp at hl1
  | cons l0 rest ih =>
    intro m m2 hscan l1 hl1 l2 hl2 hsame hne
    rw [scanLinksAliases] at hscan
    by_cases ha0 : l0.alias_ = ""
    · rw [if_pos ha0] at hscan
      cases List.mem_cons.1 hl1 with
      | inl h => rw [h] at hne; exact absurd ha0 hne
      | inr h1 =>
        cases List.mem_cons.1 hl2 with
        | inl h =>
          rw [← h, ← hsame] at ha0
          exact absurd ha0 hne
        | inr h2 => exact ih m m2 hscan l1 h1 l2 h2 hsame hne
    · rw [if_neg ha0] at hscan
      have hrest : scanLinksAliases ((l0.alias_, l0.name) :: m) rest = .ok m2 := by
        cases hm0 : m.lookup l0.alias_ with
        | some n0 =>
          rw [hm0] at hscan
          simp only at hscan
          by_cases hne2 : n0 ≠ l0.name
          · rw [if_pos hne2] at hscan
            simp at hscan
          · rw [if_neg hne2] at hscan
            exact hscan
        | none =>
          rw [hm0] at hscan
          simp only at hscan
          exact hscan
      have hlook : ((l0.alias_, l0.name) :: m).lookup l0.alias_ = some l0.name :=
        lookup_cons_self _ _
      cases List.mem_cons.1 hl1 with
      | inl h1 =>
        cases List.mem_cons.1 hl2 with
        | inl h2 => rw [h1, h2]
        | inr h2 =>
          subst h1
          exact (scanLinksAliases_ok_consistent rest _ m2 hrest l2 h2
            (hsame ▸ hne) l1.name (by rw [← hsame]; exact hlook)).symm
      | inr h1 =>
        cases List.mem_cons.1 hl2 with
        | inl h2 =>
          subst h2
          exact scanLinksAliases_ok_consistent rest _ m2 hrest l1 h1 hne l2.name
            (by rw [hsame]; exact hlook)
        | inr h2 => exact ih _ m2 hrest l1 h1 l2 h2 hsame hne

theorem scanLinksAliases_append (xs : List Link) :
    ∀ (m : List (String × String)) (ys : List Link),
      scanLinksAliases m (xs ++ ys) =
        match scanLinksAliases m xs with
        | .error e => .error e
        | .ok m2 => scanLinksAliases m2 ys := by
  induction xs with
  | nil => intro m ys; rfl
  | cons l0 rest ih =>
    intro m ys
    rw [List.cons_append, scanLinksAliases, scanLinksAliases]
    by_cases ha0 : l0.alias_ = ""
    · rw [if_pos ha0, if_pos ha0, ih]
    · rw [if_neg ha0, if_neg ha0]
      cases hm0 : m.lookup l0.alias_ with
      | some n0 =>
        simp only
        by_cases hne : n0 ≠ l0.name
        · rw [if_pos hne, if_pos hne]
        · rw [if_neg hne, if_neg hne, ih]
      | none => simp only [ih]

theorem scanServicesAliases_eq_flat (L : List Service) :
    ∀ m, scanServicesAliases m L = scanLinksAliases m (L.flatMap fun s => s.links) := by
  induction L with
  | nil => intro m; rfl
  | cons s rest ih =>
    intro m
    rw [scanServicesAliases, List.flatMap_cons, scanLinksAliases_append]
    cases h1 : scanLinksAliases m s.links with
    | error e => rfl
    | ok m2 => exact ih m2

/-- Provenance of the alias map during the scan: every recorded binding
comes from a link of `F` with a non-empty alias. -/
def AliasProv (m : List (String × String)) (F : List Link) : Prop :=
  ∀ a n, m.lookup a = some n → ∃ l ∈ F, l.alias_ = a ∧ l.name = n ∧ a ≠ ""

theorem scanLinksAliases_error_pair :
    ∀ (L : List Link) (m : List (String × String)) (F : List Link)
      (hsub : ∀ l ∈ L, l ∈ F) (hm : AliasProv m F) (e : AdapterErr)
      (he : scanLinksAliases m L = .error e),
      ∃ a, e = .errorf (aliasConflictMessage a) ∧
        ∃ l1 ∈ F, ∃ l2 ∈ F, l1.alias_ = a ∧ l2.alias_ = a ∧ a ≠ "" ∧ l1.name ≠ l2.name := by
  intro L
  induction L with
  | nil => intro m F _ _ e he; simp [scanLinksAliases] at he
  | cons l0 rest ih =>
    intro m F hsub hm e he
    rw [scanLinksAliases] at he
    by_cases ha0 : l0.alias_ = ""
    · rw [if_pos ha0] at he
      exact ih m F (fun l hl => hsub l (List.mem_cons_of_mem l0 hl)) hm e he
    · rw [if_neg ha0] at he
      have hsub2 : ∀ l ∈ rest, l ∈ F := fun l hl => hsub l (List.mem_cons_of_mem l0 hl)
      have hl0F : l0 ∈ F := hsub l0 (List.mem_cons_self l0 rest)
      have hm2 : AliasProv ((l0.alias_, l0.name) :: m) F := by
        intro a n hn
        by_cases heq : a = l0.alias_
        · subst heq
          rw [lookup_cons_self] at hn
          cases hn
          exact ⟨l0, hl0F, rfl, rfl, ha0⟩
        · rw [lookup_cons_ne _ _ heq] at hn
          exact hm a n hn
      cases hm0 : m.lookup l0.alias_ with
      | some n0 =>
        rw [hm0] at he
        simp only at he
        by_cases hne : n0 ≠ l0.name
        · rw [if_pos hne] at he
          obtain ⟨l1, hl1F, hl1a, hl1n, _⟩ := hm l0.alias_ n0 hm0
          refine ⟨l0.alias_, ?_, l1, hl1F, l0, hl0F, hl1a, rfl, ha0, ?_⟩
          · simp only [Except.error.injEq] at he
            exact he.symm
          · rw [hl1n]
            exact hne
        · rw [if_neg hne] at he
          exact ih _ F hsub2 hm2 e he
      | none =>
        rw [hm0] at he
        simp only at he
        exact ih _ F hsub2 hm2 e he

/-- A batch containing two links with the same non-empty alias but different
target names always fails alias validation, with the conflict error naming
an alias for which such a conflicting pair exists. -/
theorem validateServicesAliases_fails (ss : List Service)
    (h : ∃ s1 ∈ ss, ∃ l1 ∈ s1.links, ∃ s2 ∈ ss, ∃ l2 ∈ s2.links,
      l1.alias_ = l2.alias_ ∧ l1.alias_ ≠ "" ∧ l1.name ≠ l2.name) :
    ∃ a, validateServicesAliases ss = .error (.errorf (aliasConflictMessage a)) ∧
      ∃ s1 ∈ ss, ∃ l1 ∈ s1.links, ∃ s2 ∈ ss, ∃ l2 ∈ s2.links,
        l1.alias_ = a ∧ l2.alias_ = a ∧ a ≠ "" ∧ l1.name ≠ l2.name := by
  obtain ⟨s1, hs1, l1, hl1, s2, hs2, l2, hl2, hsame, hne, hnames⟩ := h
  have hF1 : l1 ∈ ss.flatMap fun s => s.links := List.mem_flatMap.2 ⟨s1, hs1, hl1⟩
  have hF2 : l2 ∈ ss.flatMap fun s => s.links := List.mem_flatMap.2 ⟨s2, hs2, hl2⟩
  cases hscan : scanLinksAliases [] (ss.flatMap fun s => s.links) with
  | ok m2 =>
    exact absurd (scanLinksAliases_ok_pair _ [] m2 hscan l1 hF1 l2 hF2 hsame hne) hnames
  | error e =>
    have hprov : AliasProv [] (ss.flatMap fun s => s.links) := by
      intro a n hn
      simp [List.lookup] at hn
    obtain ⟨a, hae, la, hlaF, lb, hlbF, hlaa, hlba, hane, hanames⟩ :=
      scanLinksAliases_error_pair _ [] _ (fun l hl => hl) hprov e hscan
    obtain ⟨sa, hsa, hla2⟩ := List.mem_flatMap.1 hlaF
    obtain ⟨sb, hsb, hlb2⟩ := List.mem_flatMap.1 hlbF
    refine ⟨a, ?_, sa, hsa, la, hla2, sb, hsb, lb, hlb2, hlaa, hlba, hane, hanames⟩
    rw [validateServicesAliases, scanServicesAliases_eq_flat, hscan, hae]

/-- C6: a batch containing two links that share a non-empty alias but name
different targets is rejected by `CreateServices` before any remote call
(the call trace is empty); when the batch also satisfies the (earlier) port
validation, the rejection error is the aliasing conflict error naming an
alias for which such a conflicting pair exists. -/
theorem CreateServices_conflictingAliases (E : CreateExecutor) (publicIPs : List String)
    (ss : List Service)
    (h : ∃ s1 ∈ ss, ∃ l1 ∈ s1.links, ∃ s2 ∈ ss, ∃ l2 ∈ s2.links,
      l1.alias_ = l2.alias_ ∧ l1.alias_ ≠ "" ∧ l1.name ≠ l2.name) :
    (CreateServices E publicIPs ss).2 = [] ∧
    (∃ e, (CreateServices E publicIPs ss).1 = .error e) ∧
    ((∀ s ∈ ss, s.ports.length ≤ 1) →
      ∃ a, (CreateServices E publicIPs ss).1 = .error (.errorf (aliasConflictMessage a)) ∧
        ∃ s1 ∈ ss, ∃ l1 ∈ s1.links, ∃ s2 ∈ ss, ∃ l2 ∈ s2.links,
          l1.alias_ = a ∧ l2.alias_ = a ∧ a ≠ "" ∧ l1.name ≠ l2.name) := by
  obtain ⟨a, hval, hpair⟩ := validateServicesAliases_fails ss h
  cases hports : validateServicesPorts ss with
  | error ep =>
    have hcs : CreateServices E publicIPs ss = (.error ep, []) := by
      rw [CreateServices, kServicesFromServices, hports]
    refine ⟨by rw [hcs], ⟨ep, by rw [hcs]⟩, ?_⟩
    intro hall
    rw [validateServicesPorts_ok ss hall] at hports
    cases hports
  | ok u =>
    cases u
    have hcs : CreateServices E publicIPs ss = (.error (.errorf (aliasConflictMessage a)), []) := by
      rw [CreateServices, kServicesFromServices, hports, hval]
    exact ⟨by rw [hcs], ⟨_, by rw [hcs]⟩, fun _ => ⟨a, by rw [hcs], hpair⟩⟩

/-- Witness for C6: a two-service batch whose links both use alias "Alt" but
name different targets is rejected with the alias conflict error and an
empty call trace. -/
theorem CreateServices_conflictingAliases_witness :
    (CreateServices
        { createKServices := fun _ => .ok (),
          createReplicationController := fun rc => .ok rc }
        []
        [{ name := "A", links := [{ name := "B", alias_ := "Alt" }] },
         { name := "B", links := [{ name := "A", alias_ := "Alt" }] }]).1 =
      .error (.errorf (aliasConflictMessage "Alt")) ∧
    aliasConflictMessage "Alt" =
      "multiple services with the same alias name " ++ quoteMark ++ "Alt" ++ quoteMark := by
  have h := CreateServices_conflictingAliases
    { createKServices := fun _ => .ok (),
      createReplicationController := fun rc => .ok rc }
    []
    [{ name := "A", links := [{ name := "B", alias_ := "Alt" }] },
     { name := "B", links := [{ name := "A", alias_ := "Alt" }] }]
    ⟨_, List.mem_cons_self _ _, _, List.mem_cons_self _ _,
      _, List.mem_cons_of_mem _ (List.mem_cons_self _ _), _, List.mem_cons_self _ _,
      rfl, by decide, by decide⟩
  obtain ⟨a, ha, hpair⟩ := h.2.2 (by decide)
  have : a = "Alt" := by
    obtain ⟨s1, hs1, l1, hl1, _, _, _, _, hl1a, _, _, _⟩ := hpair
    simp only [List.mem_cons, List.not_mem_nil, or_false] at hs1
    rcases hs1 with rfl | rfl <;>
      (simp only [List.mem_singleton] at hl1; subst hl1; exact hl1a.symm)
  rw [this] at ha
  exact ⟨ha, rfl⟩

/-- A batch whose two links carry the distinct alias strings "Alt Name" and
"alt_name", both of which sanitize to "alt-name". -/
def aliasedTwiceBatch : List Service :=
  [{ name := "Test Service", source := "redis",
     ports := [{ hostPort := 31981, containerPort := 12345, protocol := "TCP" }] },
   { name := "Other", source := "example",
     links := [{ name := "Test Service", alias_ := "Alt Name" },
       { name := "Test Service", alias_ := "alt_name" }] }]

/-- C9: alias validation compares raw alias strings, and the resolver never
re-checks uniqueness of sanitized names, so a batch can pass both
validations while `kServicesFromServices` succeeds with two network specs
whose Name fields are equal ("alt-name" twice). -/
theorem kServicesFromServices_duplicate_names :
    validateServicesPorts aliasedTwiceBatch = .ok () ∧
    validateServicesAliases aliasedTwiceBatch = .ok () ∧
    (kServicesFromServices aliasedTwiceBatch []).map (List.map fun k => k.metadata.name) =
      .ok ["test-service", "alt-name", "alt-name"] ∧
    ¬ (["test-service", "alt-name", "alt-name"] : List String).Nodup := by
  refine ⟨rfl, rfl, rfl, by decide⟩

/-! ## Status aggregator (adapter/adapter.go `statusFromReplicationController`,
    the revision that queries pods when the replica counts agree) -/

/-- api.PodRunning. -/
def podRunning : String := "Running"

/-- api.PodStatus (the field the adapter reads). -/
structure PodStatus where
  phase : String := ""
deriving DecidableEq, Repr

/-- api.Pod (the field the adapter reads). -/
structure Pod where
  status : PodStatus := {}
deriving DecidableEq, Repr

/-- The executor operation used by the status aggregator:
`GetPods(labels.OneTermEqualSelector(key, value))`, the selector being the
one label-equality pair it is built from. -/
structure PodLister where
  getPods : String × String → Except ExecErr (List Pod)

/-- `statusFromReplicationController` from adapter/adapter.go: "pending"
while actual < desired, "unknown" when actual > desired, and otherwise
`"running <count of Running-phase pods>/<desired>"` for the pods selected
by the workload's "service-name" label, propagating a pod-query failure. -/
def statusFromReplicationController (E : PodLister) (rc : ReplicationController) :
    Except ExecErr String :=
  let desired := rc.spec.replicas
  let actual := rc.status.replicas
  if actual < desired then .ok "pending"
  else if desired = actual then
    match E.getPods ("service-name", rc.metadata.name) with
    | .error e => .error e
    | .ok pods =>
      .ok ("running " ++ toString (pods.countP fun p => p.status.phase == podRunning) ++
        "/" ++ toString desired)
  else .ok "unknown"

/-- C3: the status aggregator returns "pending" when actual < desired,
"unknown" when actual > desired, and when the counts agree it queries the
pods selected by the "service-name" label and reports "running r/d" (r the
number of selected pods in the Running phase, d the desired count),
propagating a pod-query error instead of fabricating a status. -/
theorem statusFromReplicationController_cases (E : PodLister) (rc : ReplicationController) :
    (rc.status.replicas < rc.spec.replicas →
      statusFromReplicationController E rc = .ok "pending") ∧
    (rc.spec.replicas < rc.status.replicas →
      statusFromReplicationController E rc = .ok "unknown") ∧
    (rc.status.replicas = rc.spec.replicas →
      (∀ pods, E.getPods ("service-name", rc.metadata.name) = .ok pods →
        statusFromReplicationController E rc =
          .ok ("running " ++ toString (pods.countP fun p => p.status.phase == podRunning) ++
            "/" ++ toString rc.spec.replicas)) ∧
      (∀ e, E.getPods ("service-name", rc.metadata.name) = .error e →
        statusFromReplicationController E rc = .error e)) := by
  refine ⟨?_, ?_, ?_⟩
  · intro h
    rw [statusFromReplicationController]
    simp only [if_pos h]
  · intro h
    rw [statusFromReplicationController]
    rw [if_neg (by omega), if_neg (by omega)]
  · intro h
    constructor
    · intro pods hp
      rw [statusFromReplicationController]
      rw [if_neg (by omega), if_pos (by omega), hp]
    · intro e he
      rw [statusFromReplicationController]
      rw [if_neg (by omega), if_pos (by omega), he]

/-- Witness for C3 at the spec example: desired 2, actual 2, one Running and
one Pending pod selected, giving "running 1/2". -/
theorem statusFromReplicationController_witness :
    statusFromReplicationController
      { getPods := fun _ => .ok [{ status := { phase := "Running" } },
          { status := { phase := "Pending" } }] }
      { metadata := { name := "test-service" },
        spec := { replicas := 2 }, status := { replicas := 2 } } = .ok "running 1/2" := by
  have h := ((statusFromReplicationController_cases
    { getPods := fun _ => .ok [{ status := { phase := "Running" } },
        { status := { phase := "Pending" } }] }
    { metadata := { name := "test-service" },
      spec := { replicas := 2 }, status := { replicas := 2 } }).2.2 rfl).1 _ rfl
  rw [h]
  rfl

/-! ## Destroy path (adapter/kubernetes.go `DeleteReplicationController` and
    adapter/adapter.go `DestroyService`)

The kubernetes client is an oracle `Cluster`; every remote call the executor
makes is recorded in order in a trace, so the claims about call ordering and
about calls never issued are statements about that trace. -/

/-- One remote call of the destroy path, in the order the executor makes
them. -/
inductive KCall where
  | getRC (id : String)
  | listServices (sel : String × String)
  | deleteService (name : String)
  | updateRC (rc : ReplicationController)
  | deleteRC (id : String)
deriving DecidableEq, Repr

/-- The remote kubernetes operations used by the destroy path. -/
structure Cluster where
  getRC : String → Except ExecErr ReplicationController
  listServices : String × String → Except ExecErr (List KService)
  deleteService : String → Except ExecErr Unit
  updateRC : ReplicationController → Except ExecErr ReplicationController
  deleteRC : String → Except ExecErr Unit

/-- The deletion loop over the listed services: delete each by name,
stopping at the first error. -/
def deleteServicesLoop (k : Cluster) : List KService → Except ExecErr Unit × List KCall
  | [] => (.ok (), [])
  | s :: rest =>
    match k.deleteService s.metadata.name with
    | .error e => (.error e, [.deleteService s.metadata.name])
    | .ok _ =>
      match deleteServicesLoop k rest with
      | (r, cs) => (r, .deleteService s.metadata.name :: cs)

/-- `rc.Spec.Replicas = 0` before the update call. -/
def scaleToZero (rc : ReplicationController) : ReplicationController :=
  { rc with spec := { rc.spec with replicas := 0 } }

/-- `KubernetesExecutor.DeleteReplicationController` from
adapter/kubernetes.go: look the workload up, list the services labeled
`service-name = <its name>`, delete them all, scale the workload to zero
replicas and push that update, then delete the workload, surfacing the
first error of any step. -/
def DeleteReplicationController (k : Cluster) (id : String) : Except ExecErr Unit × List KCall :=
  match k.getRC id with
  | .error e => (.error e, [.getRC id])
  | .ok rc =>
    let sel := ("service-name", rc.metadata.name)
    match k.listServices sel with
    | .error e => (.error e, [.getRC id, .listServices sel])
    | .ok sl =>
      match deleteServicesLoop k sl with
      | (.error e, cs) => (.error e, .getRC id :: .listServices sel :: cs)
      | (.ok _, cs) =>
        match k.updateRC (scaleToZero rc) with
        | .error e =>
          (.error e, .getRC id :: .listServices sel :: (cs ++ [.updateRC (scaleToZero rc)]))
        | .ok _ =>
          match k.deleteRC id with
          | .error e =>
            (.error e, .getRC id :: .listServices sel ::
              (cs ++ [.updateRC (scaleToZero rc), .deleteRC id]))
          | .ok _ =>
            (.ok (), .getRC id :: .listServices sel ::
              (cs ++ [.updateRC (scaleToZero rc), .deleteRC id]))

theorem deleteServicesLoop_ok (k : Cluster) (sl : List KService)
    (h : ∀ s ∈ sl, k.deleteService s.metadata.name = .ok ()) :
    deleteServicesLoop k sl = (.ok (), sl.map fun s => .deleteService s.metadata.name) := by
  induction sl with
  | nil => rfl
  | cons s rest ih =>
    rw [deleteServicesLoop, h s (List.mem_cons_self s rest),
      ih fun x hx => h x (List.mem_cons_of_mem s hx)]
    simp

theorem deleteServicesLoop_error (k : Cluster) (pre : List KService) (f : KService)
    (post : List KService) (hpre : ∀ s ∈ pre, k.deleteService s.metadata.name = .ok ())
    (e : ExecErr) (hf : k.deleteService f.metadata.name = .error e) :
    deleteServicesLoop k (pre ++ f :: post) =
      (.error e, (pre.map fun s => .deleteService s.metadata.name) ++
        [.deleteService f.metadata.name]) := by
  induction pre with
  | nil =>
    rw [List.nil_append, deleteServicesLoop, hf]
    rfl
  | cons s rest ih =>
    rw [List.cons_append, deleteServicesLoop, hpre s (List.mem_cons_self s rest),
      ih fun x hx => hpre x (List.mem_cons_of_mem s hx)]
    simp

/-- C4: destroying an existing workload first deletes every network object
labeled `service-name = <workload name>` (in list order), then pushes the
workload update carrying zero desired replicas, and only then deletes the
workload object — the success trace exhibits exactly this order — while the
first error of any of these steps aborts the remaining calls and is
surfaced. -/
theorem DeleteReplicationController_sequence (k : Cluster) (id : String)
    (rc : ReplicationController) (sl : List KService)
    (hget : k.getRC id = .ok rc)
    (hlist : k.listServices ("service-name", rc.metadata.name) = .ok sl) :
    ((∀ s ∈ sl, k.deleteService s.metadata.name = .ok ()) →
      (∀ rcU, k.updateRC (scaleToZero rc) = .ok rcU →
        (k.deleteRC id = .ok () →
          DeleteReplicationController k id =
            (.ok (), .getRC id :: .listServices ("service-name", rc.metadata.name) ::
              ((sl.map fun s => .deleteService s.metadata.name) ++
                [.updateRC (scaleToZero rc), .deleteRC id]))) ∧
        (∀ e, k.deleteRC id = .error e →
          DeleteReplicationController k id =
            (.error e, .getRC id :: .listServices ("service-name", rc.metadata.name) ::
              ((sl.map fun s => .deleteService s.metadata.name) ++
                [.updateRC (scaleToZero rc), .deleteRC id])))) ∧
      (∀ e, k.updateRC (scaleToZero rc) = .error e →
        DeleteReplicationController k id =
          (.error e, .getRC id :: .listServices ("service-name", rc.metadata.name) ::
            ((sl.map fun s => .deleteService s.metadata.name) ++
              [.updateRC (scaleToZero rc)])))) ∧
    (∀ pre f post, sl = pre ++ f :: post →
      (∀ s ∈ pre, k.deleteService s.metadata.name = .ok ()) →
      ∀ e, k.deleteService f.metadata.name = .error e →
        DeleteReplicationController k id =
          (.error e, .getRC id :: .listServices ("service-name", rc.metadata.name) ::
            ((pre.map fun s => .deleteService s.metadata.name) ++
              [.deleteService f.metadata.name]))) := by
  constructor
  · intro hdel
    have hloop := deleteServicesLoop_ok k sl hdel
    constructor
    · intro rcU hup
      constructor
      · intro hdrc
        simp only [DeleteReplicationController, hget, hlist, hloop, hup, hdrc]
      · intro e hdrc
        simp only [DeleteReplicationController, hget, hlist, hloop, hup, hdrc]
    · intro e hup
      simp only [DeleteReplicationController, hget, hlist, hloop, hup]
  · intro pre f post hsl hpre e hf
    have hloop := deleteServicesLoop_error k pre f post hpre e hf
    subst hsl
    simp only [DeleteReplicationController, hget, hlist, hloop]

/-- The workload of the destroy witness. -/
def rcW : ReplicationController :=
  { metadata := { name := "test-service" }, spec := { replicas := 1 },
    status := { replicas := 0 } }

/-- The two network objects labeled for the destroy witness workload. -/
def svcW1 : KService :=
  { metadata := { name := "test-service", labels := [("service-name", "test-service")] } }

def svcW2 : KService :=
  { metadata := { name := "cache", labels := [("service-name", "test-service")] } }

/-- A concrete healthy cluster for the destroy witness. -/
def clusterW : Cluster :=
  { getRC := fun i =>
      if i = "test-service" then .ok rcW
      else .error (.statusError statusReasonNotFound "replicationController not found"),
    listServices := fun _ => .ok [svcW1, svcW2],
    deleteService := fun _ => .ok (),
    updateRC := fun rc => .ok rc,
    deleteRC := fun _ => .ok () }

/-- Witness for C4: with two labeled network objects present, the destroy
trace deletes both of them, then updates the workload to zero replicas, and
deletes the workload last. -/
theorem DeleteReplicationController_sequence_witness :
    DeleteReplicationController clusterW "test-service" =
      (.ok (), [.getRC "test-service", .listServices ("service-name", "test-service"),
        .deleteService "test-service", .deleteService "cache",
        .updateRC (scaleToZero rcW), .deleteRC "test-service"]) := by
  have h := (((DeleteReplicationController_sequence clusterW "test-service" rcW
      [svcW1, svcW2] (by simp [clusterW]) rfl).1
      (fun s _ => rfl)).1 (scaleToZero rcW) rfl).1 rfl
  rw [h]
  rfl

/-- `DestroyService` from adapter/adapter.go: run the executor deletion, map
a not-found `StatusError` to `pmxadapter.NewNotFoundError` (HTTP 404, the
backend message passed through), and return any other error unchanged.  The
fixed `time.Sleep(DeletionWaitTime)` on the success path is pure timing and
makes no remote call, so it does not appear in the trace model. -/
def DestroyService (k : Cluster) (id : String) : Except AdapterErr Unit × List KCall :=
  match DeleteReplicationController k id with
  | (.error e, cs) =>
    match e with
    | .statusError r m =>
      if r = statusReasonNotFound then (.error (.pmx 404 m), cs)
      else (.error (.exec (.statusError r m)), cs)
    | .other m => (.error (.exec (.other m)), cs)
  | (.ok _, cs) => (.ok (), cs)

/-- C7: when the workload lookup fails with the not-found status error,
`DestroyService` returns the 404 NotFound adapter error and the trace holds
only the lookup — no network-object deletion, no workload update, and no
workload deletion was issued. -/
theorem DestroyService_notFound (k : Cluster) (id : String) (m : String)
    (hget : k.getRC id = .error (.statusError statusReasonNotFound m)) :
    DestroyService k id = (.error (.pmx 404 m), [.getRC id]) := by
  simp [DestroyService, DeleteReplicationController, hget]

/-- A cluster in which every workload lookup fails with not-found. -/
def clusterNotFound : Cluster :=
  { getRC := fun _ => .error (.statusError statusReasonNotFound "replicationController not found"),
    listServices := fun _ => .ok [],
    deleteService := fun _ => .ok (),
    updateRC := fun rc => .ok rc,
    deleteRC := fun _ => .ok () }

/-- Witness for C7 at a concrete id. -/
theorem DestroyService_notFound_witness :
    DestroyService clusterNotFound "missing" =
      (.error (.pmx 404 "replicationController not found"), [.getRC "missing"]) :=
  DestroyService_notFound clusterNotFound "missing" "replicationController not found" rfl
